import Mathlib

/-!
Shallow embedding of the `games` repository: the tictactoe game module
(`internal/game/tictactoe/tictactoe.go`), the session state machine
(`internal/session/session.go`), the session manager and its persistence
path (`internal/session/manager.go`, `internal/storage/storage.go`).

Go machine integers are modelled as `Int` (board cells, turn index,
winner index, timestamps and durations); Go maps keyed by strings are
modelled as association lists whose keys are kept distinct by the same
existence checks the Go code performs; a Go channel (player mailbox) is
modelled by an identity token (`Nat`), freshly allocated from a counter
exactly where the Go code calls `make(chan []byte, 64)`.
-/

set_option autoImplicit false

namespace TicTacToe

/-- A decoded `action.payload`. The Go code decodes the raw JSON payload with
`json.Unmarshal` into `movePayload{Cell int}`: a payload is either malformed
(unmarshal error) or yields a cell value (0 when the field is absent). -/
inductive Payload where
  | cell (c : Int)
  | malformed
deriving DecidableEq, Repr

/-- `game.Action` from `internal/game/game.go`: a type tag and a payload. -/
structure Action where
  type : String
  payload : Payload
deriving DecidableEq, Repr

/-- `tictactoe.Match`: players array, 9-cell board (0 empty, 1 X, 2 O),
turn index into players, done flag, winner index (-1 draw). -/
structure Match where
  players : List String
  board : List Int
  turn : Int
  done : Bool
  winner : Int
deriving DecidableEq, Repr

/-- `TicTacToe.NewMatch`: fresh board, first configured player to move. -/
def NewMatch (playerIDs : List String) : Match :=
  { players := [playerIDs.getD 0 "", playerIDs.getD 1 ""]
    board := List.replicate 9 0
    turn := 0
    done := false
    winner := 0 }

/-- The winning lines of `tictactoe.go` (`winLines`). -/
def winLines : List (Nat × Nat × Nat) :=
  [(0, 1, 2), (3, 4, 5), (6, 7, 8),
   (0, 3, 6), (1, 4, 7), (2, 5, 8),
   (0, 4, 8), (2, 4, 6)]

/-- `Match.checkWin` evaluated on a board value. -/
def checkWin (board : List Int) (mark : Int) : Bool :=
  winLines.any fun l =>
    board.getD l.1 0 == mark && board.getD l.2.1 0 == mark && board.getD l.2.2 0 == mark

/-- `Match.boardFull`. -/
def boardFull (board : List Int) : Bool :=
  board.all fun v => v != 0

/-- The player whose turn it is, `m.Players[m.Turn]` in the Go source
(which panics on an out-of-range index; the embedding totalises with a
default that is only reached on states the Go program cannot build). -/
def Match.currentPlayer (m : Match) : String :=
  m.players.getD m.turn.toNat ""

/-- `Match.ValidActions`: one `move` action per empty cell when the game is
not over and it is the queried player's turn, otherwise the empty list. -/
def Match.ValidActions (m : Match) (playerID : String) : List Action :=
  if m.done then []
  else if playerID ≠ m.currentPlayer then []
  else m.board.enum.filterMap fun iv =>
    if iv.2 = 0 then some ⟨"move", .cell (iv.1 : Int)⟩ else none

/-- `Match.ApplyAction`. The Go method mutates the receiver and returns an
error; the embedding returns the post-state paired with the optional error.
Every error return in the source happens before any mutation. -/
def Match.ApplyAction (m : Match) (playerID : String) (action : Action) :
    Match × Option String :=
  if m.done then (m, some "game is over")
  else if playerID ≠ m.currentPlayer then (m, some "not your turn")
  else if action.type ≠ "move" then (m, some ("unknown action type: " ++ action.type))
  else
    match action.payload with
    | .malformed => (m, some "invalid move payload")
    | .cell c =>
      if c < 0 ∨ 8 < c then (m, some ("cell " ++ toString c ++ " out of range"))
      else if m.board.getD c.toNat 0 ≠ 0 then
        (m, some ("cell " ++ toString c ++ " already occupied"))
      else
        let board := m.board.set c.toNat (m.turn + 1)
        if checkWin board (m.turn + 1) then
          ({ m with board := board, done := true, winner := m.turn }, none)
        else if boardFull board then
          ({ m with board := board, done := true, winner := -1 }, none)
        else
          ({ m with board := board, turn := 1 - m.turn }, none)

/-- `Match.IsOver`. -/
def Match.IsOver (m : Match) : Bool := m.done

/-- `game.PlayerResult`. -/
structure PlayerResult where
  playerID : String
  rank : Int
  score : Int
deriving DecidableEq, Repr

/-- `Match.Results`: nil before the game is over; equal rank 1 on a draw;
otherwise rank 1 / score 1 for the winner and rank 2 / score 0 for the loser. -/
def Match.Results (m : Match) : List PlayerResult :=
  if !m.done then []
  else if m.winner = -1 then
    [⟨m.players.getD 0 "", 1, 0⟩, ⟨m.players.getD 1 "", 1, 0⟩]
  else
    [⟨m.players.getD m.winner.toNat "", 1, 1⟩,
     ⟨m.players.getD (1 - m.winner).toNat "", 2, 0⟩]

/-- A `move` action on the given cell, as built by `ValidActions`. -/
def mv (c : Int) : Action := ⟨"move", .cell c⟩

end TicTacToe

namespace Games

/-- `game.GameInfo`. -/
structure GameInfo where
  name : String
  minPlayers : Nat
  maxPlayers : Nat
deriving DecidableEq, Repr

/-- The `game.Game` interface: static info plus a match constructor.
The match type is a parameter so that any game module can instantiate it. -/
structure Game (M : Type) where
  info : GameInfo
  newMatch : List String → M

/-- A `session.Player`: its id and its mailbox. The Go mailbox is a buffered
channel created by `make(chan []byte, 64)`; the embedding keeps only the
channel's identity as a token drawn from the session's allocation counter. -/
structure Player where
  id : String
  send : Nat
deriving DecidableEq, Repr

/-- `session.Session`. `status` is a string exactly as Go's `type Status
string`; `players` is the map from player id to player record; `Match` is the
possibly-nil match interface value; `nextSend` is the mailbox freshness
counter standing in for Go's channel allocation. -/
structure Session (M : Type) where
  code : String
  gameType : String
  status : String
  hostID : String
  players : List (String × Player)
  Match : Option M
  game : Game M
  nextSend : Nat

/-- The status constants of `session.go`. -/
def StatusWaiting : String := "waiting"

/-- Status constant `StatusPlaying`. -/
def StatusPlaying : String := "playing"

/-- Status constant `StatusFinished`. -/
def StatusFinished : String := "finished"

/-- `session.NewSession`: waiting state, empty roster, zero-valued host and
match. -/
def NewSession {M : Type} (code gameType : String) (g : Game M) : Session M :=
  { code := code
    gameType := gameType
    status := StatusWaiting
    hostID := ""
    players := []
    Match := none
    game := g
    nextSend := 0 }

/-- Lookup of a key in the players map. -/
def findPlayer {M : Type} (s : Session M) (playerID : String) : Option (String × Player) :=
  s.players.find? fun q => q.1 == playerID

/-- `Session.AddPlayer`: reject when not waiting, full, or duplicate;
otherwise insert a player with a fresh mailbox and claim the host slot when
it is still unset. -/
def Session.AddPlayer {M : Type} (s : Session M) (playerID : String) :
    Except String (Session M) :=
  if s.status ≠ StatusWaiting then .error "session is not accepting players"
  else if s.game.info.maxPlayers ≤ s.players.length then .error "session is full"
  else if (findPlayer s playerID).isSome then
    .error ("player " ++ playerID ++ " already in session")
  else .ok { s with
    players := s.players ++ [(playerID, ⟨playerID, s.nextSend⟩)]
    hostID := if s.hostID = "" then playerID else s.hostID
    nextSend := s.nextSend + 1 }

/-- `Session.RemovePlayer`: close the mailbox and delete the entry when
present, otherwise do nothing. -/
def Session.RemovePlayer {M : Type} (s : Session M) (playerID : String) : Session M :=
  if (findPlayer s playerID).isSome then
    { s with players := s.players.filter fun q => !(q.1 == playerID) }
  else s

/-- `Session.ConnectPlayer`: rebind an existing player's mailbox to the
supplied one; report false for an unknown id. -/
def Session.ConnectPlayer {M : Type} (s : Session M) (playerID : String) (send : Nat) :
    Bool × Session M :=
  if (findPlayer s playerID).isSome then
    (true, { s with players := s.players.map fun q =>
      if q.1 == playerID then (q.1, { q.2 with send := send }) else q })
  else (false, s)

/-- `Session.PlayerIDs`. -/
def Session.PlayerIDs {M : Type} (s : Session M) : List String :=
  s.players.map fun q => q.1

/-- `Session.Start`: gate on waiting status and minimum player count, then
build the match from the current roster and flip to playing. -/
def Session.Start {M : Type} (s : Session M) : Except String (Session M) :=
  if s.status ≠ StatusWaiting then .error "session is not in waiting state"
  else if s.players.length < s.game.info.minPlayers then
    .error ("need at least " ++ toString s.game.info.minPlayers ++ " players, have "
      ++ toString s.players.length)
  else .ok { s with
    Match := some (s.game.newMatch s.PlayerIDs)
    status := StatusPlaying }

/-- `Session.Finish`: unconditional flip to finished. -/
def Session.Finish {M : Type} (s : Session M) : Session M :=
  { s with status := StatusFinished }

/-- `Session.Broadcast` enqueues a frame into each mailbox (dropping on a
full buffer); no field of the session changes, so the embedding is the
identity on the session state. -/
def Session.Broadcast {M : Type} (s : Session M) : Session M := s

/-- `Session.GetPlayer`: the player record for an id, nil when absent. -/
def Session.GetPlayer {M : Type} (s : Session M) (playerID : String) : Option Player :=
  (findPlayer s playerID).map fun q => q.2

/-- The session operations a caller can issue (the claims' operation
alphabet). -/
inductive Op where
  | addPlayer (playerID : String)
  | removePlayer (playerID : String)
  | connectPlayer (playerID : String) (send : Nat)
  | start
  | finish
  | broadcast
deriving DecidableEq, Repr

/-- One operation applied to a session; a failing `AddPlayer` or `Start`
leaves the state unchanged, as the Go methods return before mutating. -/
def Session.step {M : Type} (s : Session M) : Op → Session M
  | .addPlayer pid =>
    match s.AddPlayer pid with
    | .ok s' => s'
    | .error _ => s
  | .removePlayer pid => s.RemovePlayer pid
  | .connectPlayer pid send => (s.ConnectPlayer pid send).2
  | .start =>
    match s.Start with
    | .ok s' => s'
    | .error _ => s
  | .finish => s.Finish
  | .broadcast => s.Broadcast

/-- A sequence of operations applied in order. -/
def Session.run {M : Type} (s : Session M) : List Op → Session M
  | [] => s
  | op :: ops => (s.step op).run ops

/-- The session invariant claimed in the spec: the host id is a key of the
players map whenever the map is non-empty. -/
def hostInvariant {M : Type} (s : Session M) : Prop :=
  s.players ≠ [] → s.hostID ∈ s.PlayerIDs

/-- Operation sequences that never remove the player who is host at the
moment of removal. -/
def hostSafe {M : Type} (s : Session M) : List Op → Bool
  | [] => true
  | op :: ops =>
    (match op with
     | .removePlayer pid => pid != s.hostID
     | _ => true) && hostSafe (s.step op) ops

/-- Strengthening of `hostInvariant` closed under the safe operations: either
the session is empty with an unset host, or the host is on the roster. -/
def hostOk {M : Type} (s : Session M) : Prop :=
  (s.players = [] ∧ s.hostID = "") ∨ s.hostID ∈ s.PlayerIDs

/-- The match-presence invariant claimed in the spec: a playing or finished
session has a match attached. -/
def matchInvariant {M : Type} (s : Session M) : Prop :=
  (s.status = StatusPlaying ∨ s.status = StatusFinished) → s.Match.isSome

/-- Operation sequences that only call `Finish` on a playing session (the
way the connection handler drives it). -/
def finishSafe {M : Type} (s : Session M) : List Op → Bool
  | [] => true
  | op :: ops =>
    (match op with
     | .finish => s.status == StatusPlaying
     | _ => true) && finishSafe (s.step op) ops

/-- All mailboxes already handed out are below the allocation counter. -/
def mailboxesBounded {M : Type} (s : Session M) : Prop :=
  ∀ q ∈ s.players, q.2.send < s.nextSend

/-- The tictactoe game module as registered in `cmd/server/main.go`. -/
def tictactoeGame : Game TicTacToe.Match :=
  { info := { name := "tictactoe", minPlayers := 2, maxPlayers := 2 }
    newMatch := TicTacToe.NewMatch }

end Games

namespace Games

/-- A JSON document, the value form of the bytes `encoding/json` produces.
Two matches marshal to equal bytes exactly when they marshal to equal
`JVal`s, since Go's marshaller is deterministic. -/
inductive JVal where
  | jnum (n : Int)
  | jstr (s : String)
  | jbool (b : Bool)
  | jarr (xs : List JVal)
  | jobj (fields : List (String × JVal))

/-- Field lookup in a JSON object. -/
def jGet (fields : List (String × JVal)) (k : String) : Option JVal :=
  (fields.find? fun q => q.1 == k).map fun q => q.2

/-- Decoding a JSON value into a Go string. -/
def parseStr : JVal → Except String String
  | .jstr s => .ok s
  | _ => .error "cannot unmarshal into string"

/-- Decoding a JSON value into a Go int. -/
def parseNum : JVal → Except String Int
  | .jnum n => .ok n
  | _ => .error "cannot unmarshal into int"

/-- Decoding a JSON value into a Go bool. -/
def parseBool : JVal → Except String Bool
  | .jbool b => .ok b
  | _ => .error "cannot unmarshal into bool"

/-- Decoding a JSON array elementwise. -/
def parseArr {α : Type} (p : JVal → Except String α) : JVal → Except String (List α)
  | .jarr xs => xs.mapM p
  | _ => .error "cannot unmarshal into array"

/-- Go's `encoding/json` semantics for decoding a JSON array into a fixed
size array `[n]T`: surplus elements are discarded, missing ones become the
zero value. -/
def fitArr {α : Type} (n : Nat) (zero : α) (xs : List α) : List α :=
  xs.take n ++ List.replicate (n - xs.length) zero

/-- Decoding one struct field: an absent key leaves the existing value. -/
def parseField {α : Type} (fields : List (String × JVal)) (k : String)
    (p : JVal → Except String α) (old : α) : Except String α :=
  match jGet fields k with
  | none => .ok old
  | some v => p v

end Games

namespace TicTacToe

open Games

/-- `Match.MarshalJSON`: the JSON object `encoding/json` derives from the
`Match` struct tags, field for field. -/
def Match.MarshalJSON (m : Match) : JVal :=
  .jobj [("players", .jarr (m.players.map .jstr)),
         ("board", .jarr (m.board.map fun v => .jnum v)),
         ("turn", .jnum m.turn),
         ("done", .jbool m.done),
         ("winner", .jnum m.winner)]

/-- `Match.UnmarshalJSON`: `json.Unmarshal` into the receiver, overwriting
exactly the fields present in the document; `players` decodes into
`[2]string` and `board` into `[9]int` with Go's truncate-and-zero-fill
array rule. -/
def Match.UnmarshalJSON (m : Match) (data : JVal) : Except String Match :=
  match data with
  | .jobj fields => do
    let players ← parseField fields "players"
      (fun v => (parseArr parseStr v).map (fitArr 2 "")) m.players
    let board ← parseField fields "board"
      (fun v => (parseArr parseNum v).map (fitArr 9 0)) m.board
    let turn ← parseField fields "turn" parseNum m.turn
    let done ← parseField fields "done" parseBool m.done
    let winner ← parseField fields "winner" parseNum m.winner
    pure { players := players, board := board, turn := turn, done := done, winner := winner }
  | _ => .error "cannot unmarshal into Match"

end TicTacToe

namespace Games

/-- `storage.SessionRow`; `createdAt` is the stored timestamp. -/
structure SessionRow where
  code : String
  gameType : String
  status : String
  createdAt : Int
deriving DecidableEq, Repr

/-- `storage.Store`: the `sessions` table and the `match_state` table
(session code to serialized match bytes). -/
structure Store where
  sessions : List SessionRow
  matchState : List (String × JVal)

/-- `Store.UpdateSessionStatus`: update the status of every row with the
given code (the primary key makes it at most one). -/
def Store.UpdateSessionStatus (st : Store) (code status : String) : Store :=
  { st with sessions := st.sessions.map fun r =>
      if r.code == code then { r with status := status } else r }

/-- `Store.SaveMatchState`: upsert keyed by session code. -/
def Store.SaveMatchState (st : Store) (code : String) (data : JVal) : Store :=
  if (st.matchState.find? fun q => q.1 == code).isSome then
    { st with matchState := st.matchState.map fun q =>
        if q.1 == code then (q.1, data) else q }
  else
    { st with matchState := st.matchState ++ [(code, data)] }

/-- `Store.GetMatchState`: the stored bytes, or a not-found error (`none`). -/
def Store.GetMatchState (st : Store) (code : String) : Option JVal :=
  (st.matchState.find? fun q => q.1 == code).map fun q => q.2

/-- `Store.GetSession`. -/
def Store.GetSession (st : Store) (code : String) : Option SessionRow :=
  st.sessions.find? fun r => r.code == code

/-- `Store.DeleteSession`: match state rows first, then the session row. -/
def Store.DeleteSession (st : Store) (code : String) : Store :=
  { sessions := st.sessions.filter fun r => !(r.code == code)
    matchState := st.matchState.filter fun q => !(q.1 == code) }

/-- `session.Manager` specialised to the game registry built in
`cmd/server/main.go`, which registers exactly the tictactoe module. -/
structure Manager where
  sessions : List (String × Session TicTacToe.Match)
  store : Store

/-- `Registry.Get` for the registry of `cmd/server/main.go`. -/
def registryGet (name : String) : Option (Game TicTacToe.Match) :=
  if name == "tictactoe" then some tictactoeGame else none

/-- Insertion into a string-keyed map modelled as an association list:
replace when the key exists, append otherwise. -/
def assocSet {α : Type} (l : List (String × α)) (k : String) (v : α) :
    List (String × α) :=
  if (l.find? fun q => q.1 == k).isSome then
    l.map fun q => if q.1 == k then (q.1, v) else q
  else l ++ [(k, v)]

/-- `Manager.SaveMatchState`: persist the session status, then upsert the
marshalled match bytes unless the match is absent. -/
def Manager.SaveMatchState (mgr : Manager) (s : Session TicTacToe.Match) : Manager :=
  let st := mgr.store.UpdateSessionStatus s.code s.status
  match s.Match with
  | none => { mgr with store := st }
  | some m => { mgr with store := st.SaveMatchState s.code m.MarshalJSON }

/-- The per-row body of `Manager.Restore`: skip finished rows, unknown game
types, playing rows with missing or undecodable match state; otherwise
rebuild the session (with the stored status, and for playing rows a match
deserialized into a placeholder two-player match) and register it. -/
def restoreRow (st : Store) (acc : List (String × Session TicTacToe.Match))
    (row : SessionRow) : List (String × Session TicTacToe.Match) :=
  if row.status == StatusFinished then acc
  else
    match registryGet row.gameType with
    | none => acc
    | some g =>
      let s := { NewSession row.code row.gameType g with status := row.status }
      if row.status == StatusPlaying then
        match st.GetMatchState row.code with
        | none => acc
        | some data =>
          match (g.newMatch ["_", "_"]).UnmarshalJSON data with
          | .error _ => acc
          | .ok m => assocSet acc row.code { s with Match := some m }
      else assocSet acc row.code s

/-- `Manager.Restore` on a fresh manager: fold every stored row through
`restoreRow`, starting from the manager's (empty) session map. -/
def Manager.Restore (mgr : Manager) : Manager :=
  { mgr with sessions := mgr.store.sessions.foldl (restoreRow mgr.store) mgr.sessions }

/-- The body of the `Manager.cleanup` loop for one examined session entry
`q`: an empty or finished session is considered; a failed store lookup
drops it from memory only; otherwise it is deleted from store and memory
when the persisted row is older than `maxAge` or the session is empty. -/
def cleanupStep (now maxAge : Int) (mgr : Manager)
    (q : String × Session TicTacToe.Match) : Manager :=
  let s := q.2
  let empty := s.players.isEmpty
  let finished := s.status == StatusFinished
  if finished || empty then
    match mgr.store.GetSession q.1 with
    | none => { mgr with sessions := mgr.sessions.filter fun r => !(r.1 == q.1) }
    | some row =>
      if maxAge < now - row.createdAt || empty then
        { sessions := mgr.sessions.filter fun r => !(r.1 == q.1)
          store := mgr.store.DeleteSession q.1 }
      else mgr
  else mgr

/-- `Manager.cleanup`: one pass over the session map. -/
def Manager.cleanup (mgr : Manager) (now maxAge : Int) : Manager :=
  mgr.sessions.foldl (cleanupStep now maxAge) mgr

end Games

namespace Wit

/-- A finished match used as a concrete input by witnesses. -/
def mDone : TicTacToe.Match :=
  { players := ["a", "b"]
    board := List.replicate 9 0
    turn := 0
    done := true
    winner := 0 }

/-- A session with one player, used as a concrete input by witnesses. -/
def s1 : Games.Session TicTacToe.Match :=
  (Games.NewSession "c" "tictactoe" Games.tictactoeGame).run
    [Games.Op.addPlayer "alice"]

/-- A waiting session with two players (the tictactoe capacity). -/
def s2 : Games.Session TicTacToe.Match :=
  (Games.NewSession "c" "tictactoe" Games.tictactoeGame).run
    [Games.Op.addPlayer "alice", Games.Op.addPlayer "bob"]

/-- The two-player session after a successful start. -/
def sPlaying : Games.Session TicTacToe.Match := s2.step Games.Op.start

/-- The started session after `Finish`. -/
def sFin : Games.Session TicTacToe.Match := sPlaying.Finish

/-- Stored row for the finished session, created at time 0. -/
def rowFin : Games.SessionRow := ⟨"c", "tictactoe", "finished", 0⟩

/-- A manager holding the finished session and its row. -/
def mgrFin : Games.Manager := ⟨[("c", sFin)], ⟨[rowFin], []⟩⟩

/-- A session nobody has joined. -/
def emptyS : Games.Session TicTacToe.Match :=
  Games.NewSession "e" "tictactoe" Games.tictactoeGame

/-- A manager holding only the empty session, with no stored rows. -/
def mgrEmptyS : Games.Manager := ⟨[("e", emptyS)], ⟨[], []⟩⟩

/-- A manager holding a waiting session with one player. -/
def mgrWait : Games.Manager := ⟨[("c", s1)], ⟨[⟨"c", "tictactoe", "waiting", 0⟩], []⟩⟩

/-- The fresh two-player match after one action (cell 4). -/
def mActed : TicTacToe.Match :=
  ((TicTacToe.NewMatch ["alice", "bob"]).ApplyAction "alice" (TicTacToe.mv 4)).1

/-- The started session carrying `mActed`. -/
def sActed : Games.Session TicTacToe.Match := { sPlaying with Match := some mActed }

/-- The stored row for code `c` before the save. -/
def rowW : Games.SessionRow := ⟨"c", "tictactoe", "waiting", 0⟩

/-- A store holding only `rowW` and no match state. -/
def stW : Games.Store := ⟨[rowW], []⟩

end Wit

/-! Theorems. Helper lemmas come first, then one theorem per claim, each
with its witness where the statement carries hypotheses. -/

section Helpers

open TicTacToe

theorem applyAction_ok_or_frame (m : Match) (pid : String) (act : Action) :
    (m.ApplyAction pid act).2 = none ∨ (m.ApplyAction pid act).1 = m := by
  unfold Match.ApplyAction
  repeat' split
  all_goals first
    | exact Or.inl rfl
    | exact Or.inr rfl
    | exact Or.inl (by simp only []; repeat' split
                       all_goals rfl)

theorem find?_send_map_update (pid : String) (send : Nat) :
    ∀ l : List (String × Games.Player),
    (l.find? fun q => q.1 == pid).isSome = true →
    (((l.map fun q => if q.1 == pid then (q.1, { q.2 with send := send }) else q).find?
      fun q => q.1 == pid).map fun q => q.2.send) = some send := by
  intro l
  induction l with
  | nil =>
    intro h
    simp at h
  | cons q l ih =>
    intro h
    by_cases hq : (q.1 == pid) = true
    · rw [List.map_cons, if_pos hq, List.find?_cons_of_pos]
      · simp
      · exact hq
    · rw [List.map_cons, if_neg hq, List.find?_cons_of_neg]
      · rw [List.find?_cons_of_neg] at h
        · exact ih h
        · exact hq
      · exact hq

theorem addPlayer_ok_shape {M : Type} (s : Games.Session M) (pid : String)
    (s' : Games.Session M) (h : s.AddPlayer pid = .ok s') :
    s' = { s with
      players := s.players ++ [(pid, ⟨pid, s.nextSend⟩)]
      hostID := if s.hostID = "" then pid else s.hostID
      nextSend := s.nextSend + 1 } := by
  unfold Games.Session.AddPlayer at h
  split at h
  · cases h
  · split at h
    · cases h
    · split at h
      · cases h
      · exact (Except.ok.inj h).symm

theorem start_ok_shape {M : Type} (s : Games.Session M) (s' : Games.Session M)
    (h : s.Start = .ok s') :
    s' = { s with
      Match := some (s.game.newMatch s.PlayerIDs)
      status := Games.StatusPlaying } := by
  unfold Games.Session.Start at h
  split at h
  · cases h
  · split at h
    · cases h
    · exact (Except.ok.inj h).symm

theorem add_hostOk {M : Type} (s : Games.Session M) (pid : String)
    (h : Games.hostOk s) : Games.hostOk (s.step (.addPlayer pid)) := by
  cases hadd : s.AddPlayer pid with
  | error e =>
    simp only [Games.Session.step, hadd]
    exact h
  | ok s' =>
    simp only [Games.Session.step, hadd]
    rw [addPlayer_ok_shape s pid s' hadd]
    unfold Games.hostOk Games.Session.PlayerIDs at h ⊢
    dsimp only
    rw [List.map_append]
    by_cases hh : s.hostID = ""
    · rw [if_pos hh]
      exact Or.inr (List.mem_append_right _ (by simp))
    · rw [if_neg hh]
      rcases h with ⟨hp, he⟩ | hmem
      · exact absurd he hh
      · exact Or.inr (List.mem_append_left _ hmem)

theorem remove_hostOk {M : Type} (s : Games.Session M) (pid : String)
    (hne : pid ≠ s.hostID) (h : Games.hostOk s) :
    Games.hostOk (s.RemovePlayer pid) := by
  unfold Games.Session.RemovePlayer
  split
  · rename_i hfind
    unfold Games.hostOk Games.Session.PlayerIDs at h ⊢
    dsimp only
    rcases h with ⟨hp, he⟩ | hmem
    · unfold Games.findPlayer at hfind
      rw [hp] at hfind
      simp at hfind
    · right
      obtain ⟨q, hq, hq1⟩ := List.mem_map.mp hmem
      refine List.mem_map.mpr ⟨q, List.mem_filter.mpr ⟨hq, ?_⟩, hq1⟩
      simp only [Bool.not_eq_eq_eq_not, Bool.not_true, beq_eq_false_iff_ne, ne_eq, hq1]
      exact fun hc => hne hc.symm
  · exact h

theorem connect_hostOk {M : Type} (s : Games.Session M) (pid : String) (send : Nat)
    (h : Games.hostOk s) : Games.hostOk ((s.ConnectPlayer pid send).2) := by
  unfold Games.Session.ConnectPlayer
  split
  · unfold Games.hostOk Games.Session.PlayerIDs at h ⊢
    dsimp only
    rcases h with ⟨hp, he⟩ | hmem
    · left
      rw [hp]
      exact ⟨rfl, he⟩
    · right
      rw [List.map_map]
      have hfst : ((fun q => q.1) ∘ fun q : String × Games.Player =>
          if q.1 == pid then (q.1, { q.2 with send := send }) else q) =
          fun q : String × Games.Player => q.1 := by
        funext q
        show (if q.1 == pid then (q.1, { q.2 with send := send }) else q).1 = q.1
        split <;> rfl
      rw [hfst]
      exact hmem
  · exact h

theorem start_step_hostOk {M : Type} (s : Games.Session M)
    (h : Games.hostOk s) : Games.hostOk (s.step .start) := by
  cases hst : s.Start with
  | error e =>
    simp only [Games.Session.step, hst]
    exact h
  | ok s' =>
    simp only [Games.Session.step, hst]
    rw [start_ok_shape s s' hst]
    unfold Games.hostOk Games.Session.PlayerIDs at h ⊢
    dsimp only
    exact h

theorem run_hostOk {M : Type} (ops : List Games.Op) :
    ∀ s : Games.Session M, Games.hostOk s → Games.hostSafe s ops = true →
      Games.hostOk (s.run ops) := by
  induction ops with
  | nil =>
    intro s h _
    exact h
  | cons op ops ih =>
    intro s h hsafe
    rw [Games.Session.run]
    cases op with
    | addPlayer pid =>
      have hs2 : (true && Games.hostSafe (s.step (.addPlayer pid)) ops) = true := hsafe
      rw [Bool.true_and] at hs2
      exact ih _ (add_hostOk s pid h) hs2
    | removePlayer pid =>
      have hs2 : ((pid != s.hostID) &&
          Games.hostSafe (s.step (.removePlayer pid)) ops) = true := hsafe
      rw [Bool.and_eq_true] at hs2
      have hne : pid ≠ s.hostID := by simpa using hs2.1
      exact ih _ (remove_hostOk s pid hne h) hs2.2
    | connectPlayer pid send =>
      have hs2 : (true &&
          Games.hostSafe (s.step (.connectPlayer pid send)) ops) = true := hsafe
      rw [Bool.true_and] at hs2
      exact ih _ (connect_hostOk s pid send h) hs2
    | start =>
      have hs2 : (true && Games.hostSafe (s.step .start) ops) = true := hsafe
      rw [Bool.true_and] at hs2
      exact ih _ (start_step_hostOk s h) hs2
    | finish =>
      have hs2 : (true && Games.hostSafe (s.step .finish) ops) = true := hsafe
      rw [Bool.true_and] at hs2
      refine ih _ ?_ hs2
      unfold Games.hostOk Games.Session.PlayerIDs at h ⊢
      exact h
    | broadcast =>
      have hs2 : (true && Games.hostSafe (s.step .broadcast) ops) = true := hsafe
      rw [Bool.true_and] at hs2
      exact ih _ h hs2

theorem add_matchInv {M : Type} (s : Games.Session M) (pid : String)
    (h : Games.matchInvariant s) : Games.matchInvariant (s.step (.addPlayer pid)) := by
  cases hadd : s.AddPlayer pid with
  | error e =>
    simp only [Games.Session.step, hadd]
    exact h
  | ok s' =>
    simp only [Games.Session.step, hadd]
    rw [addPlayer_ok_shape s pid s' hadd]
    unfold Games.matchInvariant at h ⊢
    dsimp only
    exact h

theorem remove_matchInv {M : Type} (s : Games.Session M) (pid : String)
    (h : Games.matchInvariant s) : Games.matchInvariant (s.RemovePlayer pid) := by
  unfold Games.Session.RemovePlayer
  split
  · unfold Games.matchInvariant at h ⊢
    dsimp only
    exact h
  · exact h

theorem connect_matchInv {M : Type} (s : Games.Session M) (pid : String) (send : Nat)
    (h : Games.matchInvariant s) : Games.matchInvariant ((s.ConnectPlayer pid send).2) := by
  unfold Games.Session.ConnectPlayer
  split
  · unfold Games.matchInvariant at h ⊢
    dsimp only
    exact h
  · exact h

theorem start_step_matchInv {M : Type} (s : Games.Session M)
    (h : Games.matchInvariant s) : Games.matchInvariant (s.step .start) := by
  cases hst : s.Start with
  | error e =>
    simp only [Games.Session.step, hst]
    exact h
  | ok s' =>
    simp only [Games.Session.step, hst]
    rw [start_ok_shape s s' hst]
    unfold Games.matchInvariant
    dsimp only
    intro _
    rfl

theorem run_matchInv {M : Type} (ops : List Games.Op) :
    ∀ s : Games.Session M, Games.matchInvariant s → Games.finishSafe s ops = true →
      Games.matchInvariant (s.run ops) := by
  induction ops with
  | nil =>
    intro s h _
    exact h
  | cons op ops ih =>
    intro s h hsafe
    rw [Games.Session.run]
    cases op with
    | addPlayer pid =>
      have hs2 : (true && Games.finishSafe (s.step (.addPlayer pid)) ops) = true := hsafe
      rw [Bool.true_and] at hs2
      exact ih _ (add_matchInv s pid h) hs2
    | removePlayer pid =>
      have hs2 : (true && Games.finishSafe (s.step (.removePlayer pid)) ops) = true := hsafe
      rw [Bool.true_and] at hs2
      exact ih _ (remove_matchInv s pid h) hs2
    | connectPlayer pid send =>
      have hs2 : (true && Games.finishSafe (s.step (.connectPlayer pid send)) ops) = true :=
        hsafe
      rw [Bool.true_and] at hs2
      exact ih _ (connect_matchInv s pid send h) hs2
    | start =>
      have hs2 : (true && Games.finishSafe (s.step .start) ops) = true := hsafe
      rw [Bool.true_and] at hs2
      exact ih _ (start_step_matchInv s h) hs2
    | finish =>
      have hs2 : ((s.status == Games.StatusPlaying) &&
          Games.finishSafe (s.step .finish) ops) = true := hsafe
      rw [Bool.and_eq_true] at hs2
      have hp : s.status = Games.StatusPlaying := by
        have := hs2.1
        exact beq_iff_eq.mp this
      refine ih _ ?_ hs2.2
      unfold Games.matchInvariant at h ⊢
      dsimp only [Games.Session.step, Games.Session.Finish]
      intro _
      exact h (Or.inl hp)
    | broadcast =>
      have hs2 : (true && Games.finishSafe (s.step .broadcast) ops) = true := hsafe
      rw [Bool.true_and] at hs2
      exact ih _ h hs2

theorem find?_filter_key_none {α : Type} (l : List (String × α)) (code : String) :
    ((l.filter fun r => !(r.1 == code)).find? fun r => r.1 == code) = none := by
  rw [List.find?_eq_none]
  intro x hx
  have hb := (List.mem_filter.mp hx).2
  simpa using hb

theorem find?_map_const_update {α : Type} (k : String) (v : α) :
    ∀ l : List (String × α), (l.find? fun q => q.1 == k).isSome = true →
    (((l.map fun q => if q.1 == k then (q.1, v) else q).find? fun q => q.1 == k).map
      fun q => q.2) = some v := by
  intro l
  induction l with
  | nil =>
    intro h
    simp at h
  | cons q l ih =>
    intro h
    by_cases hq : (q.1 == k) = true
    · rw [List.map_cons, if_pos hq, List.find?_cons_of_pos]
      · simp
      · exact hq
    · rw [List.map_cons, if_neg hq, List.find?_cons_of_neg]
      · rw [List.find?_cons_of_neg] at h
        · exact ih h
        · exact hq
      · exact hq

theorem getMatchState_save (st : Games.Store) (code : String) (data : Games.JVal) :
    (st.SaveMatchState code data).GetMatchState code = some data := by
  unfold Games.Store.SaveMatchState Games.Store.GetMatchState
  split
  · rename_i hfind
    dsimp only
    exact find?_map_const_update code data st.matchState hfind
  · rename_i hfind
    dsimp only
    rw [List.find?_append]
    have hnone : (st.matchState.find? fun q => q.1 == code) = none := by
      cases hf : st.matchState.find? fun q => q.1 == code with
      | none => rfl
      | some q => exact absurd (by rw [hf]; rfl) hfind
    rw [hnone, Option.none_or]
    simp

theorem mapM_loop_parseStr (xs : List String) : ∀ acc : List String,
    List.mapM.loop Games.parseStr (xs.map Games.JVal.jstr) acc =
      Except.ok (acc.reverse ++ xs) := by
  induction xs with
  | nil =>
    intro acc
    show Except.ok acc.reverse = Except.ok (acc.reverse ++ [])
    rw [List.append_nil]
  | cons x xs ih =>
    intro acc
    simp [List.mapM.loop, Games.parseStr, Except.bind, ih]
    rfl

theorem mapM_loop_parseNum (xs : List Int) : ∀ acc : List Int,
    List.mapM.loop Games.parseNum (xs.map Games.JVal.jnum) acc =
      Except.ok (acc.reverse ++ xs) := by
  induction xs with
  | nil =>
    intro acc
    show Except.ok acc.reverse = Except.ok (acc.reverse ++ [])
    rw [List.append_nil]
  | cons x xs ih =>
    intro acc
    simp [List.mapM.loop, Games.parseNum, Except.bind, ih]
    rfl

theorem fitArr_eq {α : Type} (n : Nat) (z : α) (xs : List α) (h : xs.length = n) :
    Games.fitArr n z xs = xs := by
  subst h
  unfold Games.fitArr
  rw [List.take_length, Nat.sub_self, List.replicate_zero, List.append_nil]

theorem unmarshal_marshal (m0 m : TicTacToe.Match) (h2 : m.players.length = 2)
    (h9 : m.board.length = 9) :
    m0.UnmarshalJSON m.MarshalJSON = .ok m := by
  unfold TicTacToe.Match.MarshalJSON TicTacToe.Match.UnmarshalJSON
  simp [Games.parseField, Games.jGet, Games.parseArr, Games.parseNum, Games.parseBool,
    List.find?, mapM_loop_parseStr, mapM_loop_parseNum, fitArr_eq 2 "" m.players h2,
    fitArr_eq 9 0 m.board h9, Except.map]
  rfl

theorem isEmpty_eq_false {α : Type} (l : List α) (h : l ≠ []) : l.isEmpty = false := by
  cases l with
  | nil => exact absurd rfl h
  | cons a l => rfl

end Helpers

/-- C9: for every tictactoe match state, player id and action, if
`ApplyAction` reports an error (game over, wrong turn, unknown action type,
malformed or out-of-range payload, occupied cell) then the match state is
exactly as it was before the call. -/
theorem applyAction_error_frame (m : TicTacToe.Match) (pid : String)
    (act : TicTacToe.Action)
    (h : ((m.ApplyAction pid act).2).isSome = true) :
    (m.ApplyAction pid act).1 = m := by
  rcases applyAction_ok_or_frame m pid act with h0 | h0
  · rw [h0] at h; cases h
  · exact h0

/-- Witness for C9 at a finished match: the call errors and the state is
returned unchanged. -/
theorem applyAction_error_frame_witness :
    ((Wit.mDone.ApplyAction "a" (TicTacToe.mv 0)).2).isSome = true ∧
    (Wit.mDone.ApplyAction "a" (TicTacToe.mv 0)).1 = Wit.mDone :=
  ⟨by decide, applyAction_error_frame _ _ _ (by decide)⟩

/-- C10: every action returned by `ValidActions(playerId)` is accepted by an
immediate `ApplyAction(playerId, action)` on the same state, and
`ValidActions` is empty whenever the match is over or it is not that
player's turn. -/
theorem validActions_sound (m : TicTacToe.Match) (pid : String) :
    ((m.done = true ∨ pid ≠ m.currentPlayer) → m.ValidActions pid = []) ∧
    (∀ a : TicTacToe.Action, m.board.length = 9 → a ∈ m.ValidActions pid →
      (m.ApplyAction pid a).2 = none) := by
  constructor
  · rintro (hd | ht)
    · simp [TicTacToe.Match.ValidActions, hd]
    · simp [TicTacToe.Match.ValidActions, ht]
  · intro a hlen ha
    unfold TicTacToe.Match.ValidActions at ha
    split at ha
    · simp at ha
    · split at ha
      · simp at ha
      · rename_i hdone hturn
        rw [List.mem_filterMap] at ha
        obtain ⟨iv, hiv, hf⟩ := ha
        obtain ⟨i, v⟩ := iv
        by_cases hv : v = 0
        · rw [if_pos hv] at hf
          obtain rfl : (⟨"move", .cell (i : Int)⟩ : TicTacToe.Action) = a :=
            Option.some_injective _ hf
          have hi : m.board[i]? = some v := List.mem_enum_iff_getElem?.mp hiv
          have hilt : i < m.board.length := by
            obtain ⟨h, _⟩ := List.getElem?_eq_some_iff.mp hi
            exact h
          have hget : m.board.getD i 0 = 0 := by
            rw [List.getD_eq_getElem?_getD, hi]
            exact hv
          unfold TicTacToe.Match.ApplyAction
          rw [if_neg hdone, if_neg hturn, if_neg (by simp)]
          dsimp only
          have hrange : ¬((i : Int) < 0 ∨ 8 < (i : Int)) := by
            push_neg
            constructor
            · exact Int.ofNat_nonneg i
            · omega
          rw [if_neg hrange]
          have hocc : ¬(m.board.getD ((i : Int)).toNat 0 ≠ 0) := by
            rw [Int.toNat_ofNat, hget]
            simp
          rw [if_neg hocc]
          repeat' split
          all_goals rfl
        · rw [if_neg hv] at hf
          cases hf

/-- Witness for C10: on a fresh match the first listed action (cell 0 for
the first player) is accepted, and the finished match has no valid
actions. -/
theorem validActions_sound_witness :
    ((TicTacToe.NewMatch ["a", "b"]).ApplyAction "a" (TicTacToe.mv 0)).2 = none ∧
    Wit.mDone.ValidActions "a" = [] :=
  ⟨(validActions_sound (TicTacToe.NewMatch ["a", "b"]) "a").2 (TicTacToe.mv 0)
      (by decide) (by decide),
   (validActions_sound Wit.mDone "a").1 (Or.inl (by decide))⟩

/-- C8: on a fresh 2-player match, the player with non-empty `validActions`
(the first configured player) playing cells 0, 1, 2 while the other plays
3, 4 in alternation ends the match after the 5th action with rank 1 for the
first player and rank 2 for the other. -/
theorem tictactoe_full_play_to_win (a b : String) :
    (TicTacToe.NewMatch [a, b]).ValidActions a ≠ [] ∧
    ((TicTacToe.NewMatch [a, b]).ApplyAction a (TicTacToe.mv 0)).2 = none ∧
    (((TicTacToe.NewMatch [a, b]).ApplyAction a (TicTacToe.mv 0)).1.ApplyAction b
      (TicTacToe.mv 3)).2 = none ∧
    ((((TicTacToe.NewMatch [a, b]).ApplyAction a (TicTacToe.mv 0)).1.ApplyAction b
      (TicTacToe.mv 3)).1.ApplyAction a (TicTacToe.mv 1)).2 = none ∧
    (((((TicTacToe.NewMatch [a, b]).ApplyAction a (TicTacToe.mv 0)).1.ApplyAction b
      (TicTacToe.mv 3)).1.ApplyAction a (TicTacToe.mv 1)).1.ApplyAction b
      (TicTacToe.mv 4)).2 = none ∧
    ((((((TicTacToe.NewMatch [a, b]).ApplyAction a (TicTacToe.mv 0)).1.ApplyAction b
      (TicTacToe.mv 3)).1.ApplyAction a (TicTacToe.mv 1)).1.ApplyAction b
      (TicTacToe.mv 4)).1.ApplyAction a (TicTacToe.mv 2)).2 = none ∧
    ((((((TicTacToe.NewMatch [a, b]).ApplyAction a (TicTacToe.mv 0)).1.ApplyAction b
      (TicTacToe.mv 3)).1.ApplyAction a (TicTacToe.mv 1)).1.ApplyAction b
      (TicTacToe.mv 4)).1.ApplyAction a (TicTacToe.mv 2)).1.IsOver = true ∧
    ((((((TicTacToe.NewMatch [a, b]).ApplyAction a (TicTacToe.mv 0)).1.ApplyAction b
      (TicTacToe.mv 3)).1.ApplyAction a (TicTacToe.mv 1)).1.ApplyAction b
      (TicTacToe.mv 4)).1.ApplyAction a (TicTacToe.mv 2)).1.Results =
      [⟨a, 1, 1⟩, ⟨b, 2, 0⟩] := by
  simp [TicTacToe.NewMatch, TicTacToe.Match.ValidActions, TicTacToe.Match.ApplyAction,
    TicTacToe.Match.currentPlayer, TicTacToe.mv, TicTacToe.checkWin, TicTacToe.boardFull,
    TicTacToe.winLines, TicTacToe.Match.IsOver, TicTacToe.Match.Results,
    List.set, List.getD]
  exact ⟨0, by decide⟩

/-- C1: `Start` succeeds iff the session is waiting with at least
`minPlayers` players; on success it builds the match from the current
player ids and flips to playing, and a second `Start` fails. -/
theorem start_gate {M : Type} (s : Games.Session M) :
    ((∃ s', s.Start = .ok s') ↔
      (s.status = Games.StatusWaiting ∧ s.game.info.minPlayers ≤ s.players.length)) ∧
    (∀ s', s.Start = .ok s' →
      s'.Match = some (s.game.newMatch s.PlayerIDs) ∧
      s'.status = Games.StatusPlaying ∧
      s'.Start = .error "session is not in waiting state") := by
  constructor
  · constructor
    · rintro ⟨s', hs⟩
      unfold Games.Session.Start at hs
      split at hs
      · cases hs
      · split at hs
        · cases hs
        · rename_i h1 h2
          push_neg at h1
          exact ⟨h1, by omega⟩
    · rintro ⟨hw, hmin⟩
      unfold Games.Session.Start
      rw [if_neg (by simp [hw]), if_neg (by omega)]
      exact ⟨_, rfl⟩
  · intro s' hs
    unfold Games.Session.Start at hs
    split at hs
    · cases hs
    · split at hs
      · cases hs
      · obtain rfl : _ = s' := Except.ok.inj hs
        refine ⟨rfl, rfl, ?_⟩
        unfold Games.Session.Start
        rw [if_pos (by exact (by decide : Games.StatusPlaying ≠ Games.StatusWaiting))]

/-- Witness for C1: a waiting two-player tictactoe session starts, and the
started session carries the constructed match, is playing, and refuses a
second start. -/
theorem start_gate_witness :
    (∃ s', Wit.s2.Start = .ok s') ∧
    ((Wit.s2.step Games.Op.start).Match = some (Wit.s2.game.newMatch Wit.s2.PlayerIDs) ∧
     (Wit.s2.step Games.Op.start).status = Games.StatusPlaying ∧
     (Wit.s2.step Games.Op.start).Start = .error "session is not in waiting state") :=
  ⟨(start_gate Wit.s2).1.mpr ⟨rfl, by decide⟩,
   (start_gate Wit.s2).2 _ rfl⟩

/-- C5: `AddPlayer` fails with a not-accepting error when the status is not
waiting, with a full error at capacity, with a duplicate error for a
present id; on success the player gets the freshly allocated mailbox (a
token distinct from every existing one) and the host id is claimed exactly
when it was unset. -/
theorem addPlayer_spec {M : Type} (s : Games.Session M) (pid : String) :
    (s.status ≠ Games.StatusWaiting →
      s.AddPlayer pid = .error "session is not accepting players") ∧
    (s.status = Games.StatusWaiting →
      s.game.info.maxPlayers ≤ s.players.length →
      s.AddPlayer pid = .error "session is full") ∧
    (s.status = Games.StatusWaiting →
      s.players.length < s.game.info.maxPlayers →
      pid ∈ s.PlayerIDs →
      s.AddPlayer pid = .error ("player " ++ pid ++ " already in session")) ∧
    (∀ s', s.AddPlayer pid = .ok s' →
      s'.GetPlayer pid = some ⟨pid, s.nextSend⟩ ∧
      (Games.mailboxesBounded s → ∀ q ∈ s.players, q.2.send ≠ s.nextSend) ∧
      (s.hostID = "" → s'.hostID = pid) ∧
      (s.hostID ≠ "" → s'.hostID = s.hostID)) := by
  refine ⟨?_, ?_, ?_, ?_⟩
  · intro h
    unfold Games.Session.AddPlayer
    rw [if_pos h]
  · intro hw hfull
    unfold Games.Session.AddPlayer
    rw [if_neg (by simp [hw]), if_pos hfull]
  · intro hw hlt hmem
    obtain ⟨q, hq, hq1⟩ := List.mem_map.mp hmem
    unfold Games.Session.AddPlayer Games.findPlayer
    rw [if_neg (by simp [hw]), if_neg (by omega),
      if_pos (List.find?_isSome.mpr ⟨q, hq, by simp [hq1]⟩)]
  · intro s' hs
    unfold Games.Session.AddPlayer Games.findPlayer at hs
    split at hs
    · cases hs
    · split at hs
      · cases hs
      · split at hs
        · cases hs
        · rename_i hdup
          obtain rfl : _ = s' := Except.ok.inj hs
          have hnone : List.find? (fun q => q.1 == pid) s.players = none := by
            cases hfind : List.find? (fun q => q.1 == pid) s.players with
            | none => rfl
            | some q => exact absurd (by rw [hfind]; rfl) hdup
          refine ⟨?_, ?_, ?_, ?_⟩
          · unfold Games.Session.GetPlayer Games.findPlayer
            dsimp only
            rw [List.find?_append, hnone, Option.none_or]
            simp
          · intro hb q hq
            exact Nat.ne_of_lt (hb q hq)
          · intro h
            dsimp only
            rw [if_pos h]
          · intro h
            dsimp only
            rw [if_neg h]

/-- Witness for C5: the four clauses at concrete sessions — a playing
session rejects joins, a session at capacity is full, a duplicate id is
rejected, and a successful join hands out the fresh mailbox and keeps the
host. -/
theorem addPlayer_spec_witness :
    Wit.sPlaying.AddPlayer "zed" = .error "session is not accepting players" ∧
    Wit.s2.AddPlayer "zed" = .error "session is full" ∧
    Wit.s1.AddPlayer "alice" = .error ("player " ++ "alice" ++ " already in session") ∧
    ((Wit.s1.step (Games.Op.addPlayer "bob")).GetPlayer "bob" =
      some ⟨"bob", Wit.s1.nextSend⟩ ∧
     (Games.mailboxesBounded Wit.s1 →
       ∀ q ∈ Wit.s1.players, q.2.send ≠ Wit.s1.nextSend) ∧
     (Wit.s1.hostID = "" → (Wit.s1.step (Games.Op.addPlayer "bob")).hostID = "bob") ∧
     (Wit.s1.hostID ≠ "" →
       (Wit.s1.step (Games.Op.addPlayer "bob")).hostID = Wit.s1.hostID)) :=
  ⟨(addPlayer_spec Wit.sPlaying "zed").1 (by decide),
   (addPlayer_spec Wit.s2 "zed").2.1 rfl (by decide),
   (addPlayer_spec Wit.s1 "alice").2.2.1 rfl (by decide) (by decide),
   (addPlayer_spec Wit.s1 "bob").2.2.2 _ rfl⟩

/-- C7: after a successful `ConnectPlayer(id, newMailbox)` the player's
mailbox is the new one; for an unknown id `ConnectPlayer` returns false and
returns the session entirely unchanged. -/
theorem connectPlayer_spec {M : Type} (s : Games.Session M) (pid : String) (send : Nat) :
    ((s.ConnectPlayer pid send).1 = true →
      (((s.ConnectPlayer pid send).2.GetPlayer pid).map fun p => p.send) = some send) ∧
    (pid ∉ s.PlayerIDs → s.ConnectPlayer pid send = (false, s)) := by
  constructor
  · intro h
    unfold Games.Session.ConnectPlayer Games.findPlayer at h ⊢
    by_cases hfind : (List.find? (fun q => q.1 == pid) s.players).isSome = true
    · rw [if_pos hfind]
      unfold Games.Session.GetPlayer Games.findPlayer
      dsimp only
      rw [Option.map_map]
      exact find?_send_map_update pid send s.players hfind
    · rw [if_neg hfind] at h
      simp at h
  · intro hmem
    unfold Games.Session.ConnectPlayer Games.findPlayer
    rw [if_neg ?hc]
    case hc =>
      intro hfind
      obtain ⟨q, hq, hqp⟩ := List.find?_isSome.mp hfind
      exact hmem (List.mem_map.mpr ⟨q, hq, by simpa using hqp⟩)

/-- Witness for C7: rebinding the known player's mailbox is visible through
`GetPlayer`, and connecting an unknown id is the identity with a false
report. -/
theorem connectPlayer_spec_witness :
    (((Wit.s1.ConnectPlayer "alice" 7).2.GetPlayer "alice").map fun p => p.send) =
      some 7 ∧
    Wit.s1.ConnectPlayer "zed" 7 = (false, Wit.s1) :=
  ⟨(connectPlayer_spec Wit.s1 "alice" 7).1 rfl,
   (connectPlayer_spec Wit.s1 "zed" 7).2 (by decide)⟩

/-- C3 counterexample: add players a and b, then remove a (the host).
The roster is non-empty but the host id is no longer a key: `RemovePlayer`
never reassigns `hostId`. -/
theorem host_invariant_cex :
    ¬ Games.hostInvariant ((Games.NewSession "c" "tictactoe" Games.tictactoeGame).run
      [Games.Op.addPlayer "a", Games.Op.addPlayer "b", Games.Op.removePlayer "a"]) := by
  intro h
  have hm := h (by decide)
  revert hm
  decide

/-- C3 (amended): along every operation sequence from `NewSession` that
never removes the player who is currently host, a non-empty players map has
`hostId` among its keys. (As claimed — with host removal allowed — the
invariant fails; see the counterexample.) -/
theorem session_host_invariant {M : Type} (g : Games.Game M) (code gameType : String)
    (ops : List Games.Op)
    (h : Games.hostSafe (Games.NewSession code gameType g) ops = true) :
    Games.hostInvariant ((Games.NewSession code gameType g).run ops) := by
  have h0 : Games.hostOk (Games.NewSession code gameType g) := Or.inl ⟨rfl, rfl⟩
  rcases run_hostOk ops _ h0 h with ⟨hp, _⟩ | hmem
  · intro hne
    exact absurd hp hne
  · intro _
    exact hmem

/-- Witness for C3: a host-safe sequence (add a, add b, remove b) keeps the
invariant. -/
theorem session_host_invariant_witness :
    Games.hostSafe (Games.NewSession "c" "tictactoe" Games.tictactoeGame)
      [Games.Op.addPlayer "a", Games.Op.addPlayer "b", Games.Op.removePlayer "b"] = true ∧
    Games.hostInvariant ((Games.NewSession "c" "tictactoe" Games.tictactoeGame).run
      [Games.Op.addPlayer "a", Games.Op.addPlayer "b", Games.Op.removePlayer "b"]) :=
  ⟨by decide,
   session_host_invariant Games.tictactoeGame "c" "tictactoe" _ (by decide)⟩

/-- C4 counterexample: `Finish` on a fresh waiting session yields status
finished with no match attached, because `Finish` flips the status
unconditionally. -/
theorem match_invariant_cex :
    ¬ Games.matchInvariant ((Games.NewSession "c" "tictactoe" Games.tictactoeGame).run
      [Games.Op.finish]) := by
  intro h
  have hm := h (Or.inr rfl)
  revert hm
  decide

/-- C4 (amended): along every operation sequence from `NewSession` in which
`Finish` is only invoked while the status is playing (as the connection
handler does), a playing or finished session has a match present. (As
claimed — with `Finish` unrestricted — the invariant fails; see the
counterexample.) -/
theorem session_match_invariant {M : Type} (g : Games.Game M) (code gameType : String)
    (ops : List Games.Op)
    (h : Games.finishSafe (Games.NewSession code gameType g) ops = true) :
    Games.matchInvariant ((Games.NewSession code gameType g).run ops) := by
  apply run_matchInv ops _ ?_ h
  intro hdisj
  rcases hdisj with hw | hw
  · exact absurd hw (show Games.StatusWaiting ≠ Games.StatusPlaying by decide)
  · exact absurd hw (show Games.StatusWaiting ≠ Games.StatusFinished by decide)

/-- Witness for C4: a finish-safe sequence (two joins, start, finish) ends
finished with the match still present. -/
theorem session_match_invariant_witness :
    Games.finishSafe (Games.NewSession "c" "tictactoe" Games.tictactoeGame)
      [Games.Op.addPlayer "a", Games.Op.addPlayer "b", Games.Op.start,
        Games.Op.finish] = true ∧
    Games.matchInvariant ((Games.NewSession "c" "tictactoe" Games.tictactoeGame).run
      [Games.Op.addPlayer "a", Games.Op.addPlayer "b", Games.Op.start,
        Games.Op.finish]) :=
  ⟨by decide,
   session_match_invariant Games.tictactoeGame "c" "tictactoe" _ (by decide)⟩

/-- C6: in a cleanup pass, a session with an empty players map is evicted
regardless of `maxAge`; a finished session with players is evicted exactly
when its persisted row is older than `maxAge`; a waiting session with at
least one player is left untouched. -/
theorem cleanup_spec (mgr : Games.Manager) (now maxAge : Int) (code : String)
    (s : Games.Session TicTacToe.Match) :
    (s.players = [] →
      ((Games.cleanupStep now maxAge mgr (code, s)).sessions.find?
        fun r => r.1 == code) = none) ∧
    (s.status = Games.StatusFinished → s.players ≠ [] →
      ∀ row, mgr.store.GetSession code = some row → (code, s) ∈ mgr.sessions →
      (((Games.cleanupStep now maxAge mgr (code, s)).sessions.find?
        fun r => r.1 == code) = none ↔ maxAge < now - row.createdAt)) ∧
    (s.status = Games.StatusWaiting → s.players ≠ [] →
      Games.cleanupStep now maxAge mgr (code, s) = mgr) := by
  refine ⟨?_, ?_, ?_⟩
  · intro hp
    unfold Games.cleanupStep
    dsimp only
    rw [show s.players.isEmpty = true by rw [hp]; rfl, Bool.or_true, if_pos rfl]
    cases hrow : mgr.store.GetSession code with
    | none =>
      simp only [hrow]
      exact find?_filter_key_none _ code
    | some row =>
      simp only [hrow]
      rw [Bool.or_true, if_pos rfl]
      exact find?_filter_key_none _ code
  · intro hf hne row hrow hmem
    unfold Games.cleanupStep
    dsimp only
    rw [isEmpty_eq_false s.players hne, hf, Bool.or_false,
      if_pos (beq_self_eq_true Games.StatusFinished)]
    simp only [hrow]
    rw [Bool.or_false]
    constructor
    · intro hev
      by_cases hage : maxAge < now - row.createdAt
      · exact hage
      · exfalso
        rw [if_neg (by simpa using hage)] at hev
        rw [List.find?_eq_none] at hev
        have hx := hev (code, s) hmem
        simp at hx
    · intro hage
      rw [if_pos (by simpa using hage)]
      exact find?_filter_key_none _ code
  · intro hw hne
    unfold Games.cleanupStep
    dsimp only
    rw [isEmpty_eq_false s.players hne, hw, Bool.or_false,
      show (Games.StatusWaiting == Games.StatusFinished) = false from rfl,
      if_neg (by simp)]

/-- Witness for C6: an empty session is evicted with no row stored, the
finished session from time 0 is evicted under `now = 10, maxAge = 5`, and
the waiting one-player session survives untouched. -/
theorem cleanup_spec_witness :
    ((Games.cleanupStep 10 5 Wit.mgrEmptyS ("e", Wit.emptyS)).sessions.find?
      fun r => r.1 == "e") = none ∧
    (((Games.cleanupStep 10 5 Wit.mgrFin ("c", Wit.sFin)).sessions.find?
      fun r => r.1 == "c") = none ↔ (5 : Int) < 10 - Wit.rowFin.createdAt) ∧
    Games.cleanupStep 10 5 Wit.mgrWait ("c", Wit.s1) = Wit.mgrWait :=
  ⟨(cleanup_spec Wit.mgrEmptyS 10 5 "e" Wit.emptyS).1 rfl,
   (cleanup_spec Wit.mgrFin 10 5 "c" Wit.sFin).2.1 rfl (by decide) Wit.rowFin rfl
     (List.mem_singleton.mpr rfl),
   (cleanup_spec Wit.mgrWait 10 5 "c" Wit.s1).2.2 rfl (by decide)⟩

/-- C2: saving a playing tictactoe session and restoring a fresh manager
over the same store reproduces a session with the same code and playing
status whose match, deserialized from the stored bytes, marshals to exactly
the bytes that were saved. -/
theorem persistence_roundtrip
    (msessions : List (String × Games.Session TicTacToe.Match))
    (s : Games.Session TicTacToe.Match) (m : TicTacToe.Match)
    (st : Games.Store) (row : Games.SessionRow)
    (hrows : st.sessions = [row]) (hcode : row.code = s.code)
    (hgt : row.gameType = "tictactoe")
    (hstatus : s.status = Games.StatusPlaying)
    (hm : s.Match = some m)
    (h2 : m.players.length = 2) (h9 : m.board.length = 9) :
    ∃ s' : Games.Session TicTacToe.Match, ∃ m' : TicTacToe.Match,
      (Games.Manager.Restore
        ⟨[], (Games.Manager.SaveMatchState ⟨msessions, st⟩ s).store⟩).sessions =
        [(s.code, s')] ∧
      s'.code = s.code ∧
      s'.status = Games.StatusPlaying ∧
      s'.Match = some m' ∧
      m'.MarshalJSON = m.MarshalJSON ∧
      (Games.Manager.SaveMatchState ⟨msessions, st⟩ s).store.GetMatchState s.code =
        some m.MarshalJSON := by
  have hsave : (Games.Manager.SaveMatchState ⟨msessions, st⟩ s).store =
      (Games.Store.UpdateSessionStatus st s.code s.status).SaveMatchState s.code
        m.MarshalJSON := by
    unfold Games.Manager.SaveMatchState
    rw [hm]
  have hups : (Games.Store.UpdateSessionStatus st s.code s.status).sessions =
      [{ row with status := s.status }] := by
    unfold Games.Store.UpdateSessionStatus
    dsimp only
    rw [hrows, List.map_cons, List.map_nil, if_pos (beq_iff_eq.mpr hcode)]
  have hsess2 : ((Games.Store.UpdateSessionStatus st s.code s.status).SaveMatchState
      s.code m.MarshalJSON).sessions = [{ row with status := s.status }] := by
    unfold Games.Store.SaveMatchState
    split
    · dsimp only
      exact hups
    · dsimp only
      exact hups
  have hget : ((Games.Store.UpdateSessionStatus st s.code s.status).SaveMatchState
      s.code m.MarshalJSON).GetMatchState s.code = some m.MarshalJSON :=
    getMatchState_save _ _ _
  rw [hstatus] at hsave hsess2 hget
  refine ⟨{ Games.NewSession s.code "tictactoe" Games.tictactoeGame with
      status := Games.StatusPlaying, Match := some m }, m, ?_, rfl, rfl, rfl, rfl, ?_⟩
  · unfold Games.Manager.Restore
    dsimp only
    rw [hsave, hsess2, List.foldl_cons, List.foldl_nil]
    unfold Games.restoreRow
    dsimp only
    rw [hcode, hgt,
      show (Games.StatusPlaying == Games.StatusFinished) = false from rfl,
      if_neg (by simp),
      show Games.registryGet "tictactoe" = some Games.tictactoeGame from rfl]
    dsimp only
    rw [show (Games.StatusPlaying == Games.StatusPlaying) = true from rfl, if_pos rfl,
      hget]
    dsimp only
    rw [unmarshal_marshal (Games.tictactoeGame.newMatch ["_", "_"]) m h2 h9]
    dsimp only
    unfold Games.assocSet
    rw [if_neg (by simp)]
    rfl
  · rw [hsave]
    exact hget

/-- Witness for C2: the started alice/bob session with one action applied at
cell 4, saved over a store holding its waiting row, restores as required. -/
theorem persistence_roundtrip_witness :
    ∃ s' : Games.Session TicTacToe.Match, ∃ m' : TicTacToe.Match,
      (Games.Manager.Restore
        ⟨[], (Games.Manager.SaveMatchState ⟨[], Wit.stW⟩ Wit.sActed).store⟩).sessions =
        [(Wit.sActed.code, s')] ∧
      s'.code = Wit.sActed.code ∧
      s'.status = Games.StatusPlaying ∧
      s'.Match = some m' ∧
      m'.MarshalJSON = Wit.mActed.MarshalJSON ∧
      (Games.Manager.SaveMatchState ⟨[], Wit.stW⟩ Wit.sActed).store.GetMatchState
        Wit.sActed.code = some Wit.mActed.MarshalJSON :=
  persistence_roundtrip [] Wit.sActed Wit.mActed Wit.stW Wit.rowW rfl rfl rfl rfl rfl
    (by decide) (by decide)
